import Mathlib

/-!
# pull-request-diff-comment-action: the comment filter and the `run` pipeline

A shallow embedding of `src/index.js`.

* A JavaScript string is the sequence of its UTF-16 code units; it is embedded as
  `JsString = List Nat`, one number per code unit.  `startsWith`, `indexOf`, `length`
  and `trim` all work on code units, as they do in JavaScript.
* A thrown value is embedded as `Thrown`; a function that may throw returns `Except Thrown _`.
* The collaborators of the script (the runner's inputs, the file system, the GraphQL and REST
  client) are a `World`: one outcome function per operation.  `run` returns the list of the
  effects it performs, in order.
-/

namespace PullRequestDiffComment

/-! ## Strings -/

/-- A JavaScript string: its UTF-16 code units, in order. -/
abbrev JsString := List Nat

/-- The code units of a string literal of the source (all of them are ASCII). -/
def lit (s : String) : JsString := s.toList.map Char.toNat

/-- The method `String.prototype.startsWith( search )` (position 0). -/
def startsWith (s search : JsString) : Bool := search.isPrefixOf s

/-- The scan of `indexOf`: the first index `k + i` such that `search` is a prefix of the
    `i`-th suffix of `s`, or `-1`. -/
def indexOfAux (search : JsString) : JsString → Nat → Int
  | [], k => if search.isPrefixOf [] then (k : Int) else -1
  | c :: cs, k => if search.isPrefixOf (c :: cs) then (k : Int) else indexOfAux search cs (k + 1)

/-- The method `String.prototype.indexOf( search, position )`: the scan starts at
    `min position s.length`. -/
def indexOf (s search : JsString) (position : Nat) : Int :=
  indexOfAux search (s.drop (min position s.length)) (min position s.length)

/-- The code units that `String.prototype.trim` strips: ECMAScript WhiteSpace and
    LineTerminator. -/
def isTrimmed (c : Nat) : Bool :=
  c = 0x09 || c = 0x0A || c = 0x0B || c = 0x0C || c = 0x0D || c = 0x20 || c = 0xA0 ||
  c = 0x1680 || (0x2000 ≤ c && c ≤ 0x200A) || c = 0x2028 || c = 0x2029 || c = 0x202F ||
  c = 0x205F || c = 0x3000 || c = 0xFEFF

/-- The method `String.prototype.trim()`. -/
def trim (s : JsString) : JsString := (s.dropWhile isTrimmed).rdropWhile isTrimmed

/-- The text of a natural number written in decimal, as a template literal renders a run id. -/
def decimal (n : Nat) : JsString := (Nat.toDigits 10 n).map Char.toNat

/-! ## Constants of the script (lines 7-10) -/

/-- Line 7: `commentHeader`. -/
def commentHeader : JsString := lit "<!-- ActionId: pull-request-diff-comment-action -->\n"

/-- Line 8: `runMarker`, as a function of the text of `context.runId`. -/
def runMarker (runId : JsString) : JsString := lit "<!-- RunId: " ++ runId ++ lit " -->\n"

/-- Line 9: `diffMarkdownHeader`. -/
def diffMarkdownHeader : JsString := lit "```diff\n"

/-- Line 10: `diffMarkdownFooter`. -/
def diffMarkdownFooter : JsString := lit "\n```"

/-! ## Data -/

/-- A thrown value. -/
inductive Thrown where
  /-- An `Error` raised by a collaborator, with its message. -/
  | error (message : JsString)
  /-- The `TypeError` of reading property `property` of `null`. -/
  | nullRead (property : JsString)
  deriving DecidableEq

/-- The property `message` of a thrown value.  The text of the `TypeError` is the one of
    current V8; only its being the message passed on to `setFailed` matters below. -/
def Thrown.message : Thrown → JsString
  | .error m => m
  | .nullRead p => lit "Cannot read properties of null (reading \x27" ++ p ++ lit "\x27)"

/-- The `author` object of a comment node.  The query selects `id` and `login` on `Bot` only,
    so both are undefined for an author that is not a bot. -/
structure Author where
  id : Option JsString
  login : Option JsString
  deriving DecidableEq

/-- A comment node of the query result; `author` is `none` when the node carries `null`. -/
structure Comment where
  id : JsString
  body : JsString
  isMinimized : Bool
  author : Option Author
  deriving DecidableEq

/-! ## The filter (lines 78-97) -/

/-- Lines 78-97: `isNonMinimizedDiffComment`. -/
def isNonMinimizedDiffComment (runId : JsString) (comment : Comment) : Except Thrown Bool :=
  if comment.isMinimized then .ok false
  else
    match comment.author with
    | none => .error (.nullRead (lit "login"))
    | some author =>
      if author.login ≠ some (lit "github-actions") then .ok false
      else if !startsWith comment.body commentHeader then .ok false
      else if indexOf comment.body (runMarker runId) commentHeader.length ≥ 0 then .ok false
      else .ok true

/-- The comments that `filter( isNonMinimizedDiffComment )` keeps; the first call that throws
    ends the filtering with that thrown value (`Array.prototype.filter` calls the predicate
    on the elements in order). -/
def filterComments (runId : JsString) : List Comment → Except Thrown (List Comment)
  | [] => .ok []
  | c :: cs =>
    match isNonMinimizedDiffComment runId c with
    | .error e => .error e
    | .ok keep =>
      match filterComments runId cs with
      | .error e => .error e
      | .ok rest => .ok (if keep then c :: rest else rest)

/-! ## The collaborators and the effects -/

/-- The value of `context.issue`, the variables of the query. -/
structure Issue where
  owner : JsString
  repo : JsString
  number : Int
  deriving DecidableEq

/-- The argument of `octokit.issues.createComment` (lines 135-140). -/
structure CommentArgs where
  owner : JsString
  repo : JsString
  issue_number : Int
  body : JsString
  deriving DecidableEq

/-- The node `pullRequest` of the query result; `comments` is `comments.nodes`. -/
structure PullRequestNode where
  comments : List Comment
  deriving DecidableEq

/-- The node `repository` of the query result. -/
structure RepositoryNode where
  pullRequest : Option PullRequestNode
  deriving DecidableEq

/-- The data that `octokit.graphql` resolves to for the comments query. -/
structure QueryResult where
  repository : Option RepositoryNode
  deriving DecidableEq

/-- The collaborators of the script: what each operation answers.  `minimize k id` is the
    outcome of the mutation for `id` when `k` mutations were issued before it. -/
structure World where
  runId : JsString
  issue : Issue
  getInput : JsString → Except Thrown JsString
  readFile : JsString → Except Thrown JsString
  graphql : Issue → Except Thrown QueryResult
  minimize : Nat → JsString → Except Thrown Unit
  createComment : CommentArgs → Except Thrown Unit

/-- The second argument of `detailedInfo`, whose JSON text is logged. -/
inductive LogParams where
  | issue (pullRequest : Issue)
  | comments (nodes : List Comment)
  | subject (subjectId : JsString)
  | commentArgs (args : CommentArgs)
  deriving DecidableEq

/-- An effect of the script on its collaborators. -/
inductive Event where
  /-- The call `core.info( message )`. -/
  | info (message : JsString)
  /-- The call `detailedInfo( msg, params )` (lines 12-15), a `core.info` of both. -/
  | detailedInfo (msg : JsString) (params : LogParams)
  /-- The call `core.error( message )`. -/
  | error (message : JsString)
  /-- The call `octokit.graphql( query, pullRequest )`. -/
  | query (pullRequest : Issue)
  /-- The call `octokit.graphql( mutation, { subjectId } )`. -/
  | mutation (subjectId : JsString)
  /-- The call `octokit.issues.createComment( args )`. -/
  | createComment (args : CommentArgs)
  /-- The call `core.setFailed( message )`. -/
  | setFailed (message : JsString)
  deriving DecidableEq

/-- The remote calls among the effects. -/
def Event.isRemote : Event → Bool
  | .query _ => true
  | .mutation _ => true
  | .createComment _ => true
  | _ => false

/-- The minimize mutations among the effects. -/
def Event.isMutation : Event → Bool
  | .mutation _ => true
  | _ => false

/-- The `createComment` calls among the effects. -/
def Event.isCreate : Event → Bool
  | .createComment _ => true
  | _ => false

/-- The `setFailed` calls among the effects. -/
def Event.isSetFailed : Event → Bool
  | .setFailed _ => true
  | _ => false

/-- The `core.error` calls among the effects. -/
def Event.isError : Event → Bool
  | .error _ => true
  | _ => false

/-! ## The pipeline -/

/-- Lines 17-47: `getPullRequestComments`; the effects, and the comments or the thrown value. -/
def getPullRequestComments (w : World) (pullRequest : Issue) :
    List Event × Except Thrown (List Comment) :=
  let effects :=
    [Event.detailedInfo (lit "Querying pull request comments") (.issue pullRequest),
     Event.query pullRequest]
  match w.graphql pullRequest with
  | .error e => (effects, .error e)
  | .ok result =>
    match result.repository with
    | none => (effects, .error (.nullRead (lit "pullRequest")))
    | some repository =>
      match repository.pullRequest with
      | none => (effects, .error (.nullRead (lit "comments")))
      | some pullRequestNode => (effects, .ok pullRequestNode.comments)

/-- Lines 49-76: `minimizeComment`, as the `k`-th mutation of the run (counted from 0);
    it catches what the mutation throws. -/
def minimizeComment (w : World) (k : Nat) (commentId : JsString) : List Event :=
  [Event.detailedInfo (lit "Minimizing comment") (.subject commentId), Event.mutation commentId] ++
  match w.minimize k commentId with
  | .ok _ => []
  | .error err => [Event.error (lit "Failed to minimize comment: " ++ err.message)]

/-- Lines 123-125: the loop over `outdatedComments`, `k` mutations having been issued. -/
def minimizeAll (w : World) : Nat → List Comment → List Event
  | _, [] => []
  | k, comment :: rest => minimizeComment w k comment.id ++ minimizeAll w (k + 1) rest

/-- Lines 127-133: the body of the new comment. -/
def commentBody (runId diff : JsString) : JsString :=
  commentHeader ++ runMarker runId ++ diffMarkdownHeader ++ trim diff ++ diffMarkdownFooter

/-- Lines 101-143: the `try` block of `run`; the effects, and the thrown value if any. -/
def runTry (w : World) : List Event × Except Thrown Unit :=
  match w.getInput (lit "diff-path") with
  | .error e => ([], .error e)
  | .ok diffPath =>
    match w.getInput (lit "github-token") with
    | .error e => ([], .error e)
    | .ok _token =>
      let reading := [Event.info (lit "Reading diff: " ++ diffPath)]
      match w.readFile diffPath with
      | .error e => (reading, .error e)
      | .ok diff =>
        match getPullRequestComments w w.issue with
        | (querying, .error e) => (reading ++ querying, .error e)
        | (querying, .ok comments) =>
          let fetched := [Event.detailedInfo (lit "Fetched comments") (.comments comments)]
          match filterComments w.runId comments with
          | .error e => (reading ++ querying ++ fetched, .error e)
          | .ok outdatedComments =>
            let minimizing := minimizeAll w 0 outdatedComments
            let commentArgs : CommentArgs :=
              { owner := w.issue.owner, repo := w.issue.repo, issue_number := w.issue.number,
                body := commentBody w.runId diff }
            let creating :=
              [Event.detailedInfo (lit "Creating comment") (.commentArgs commentArgs),
               Event.createComment commentArgs]
            match w.createComment commentArgs with
            | .error e => (reading ++ querying ++ fetched ++ minimizing ++ creating, .error e)
            | .ok _ => (reading ++ querying ++ fetched ++ minimizing ++ creating, .ok ())

/-- Lines 99-148: `run`; the `catch` reports the thrown value through `core.setFailed`. -/
def run (w : World) : List Event :=
  match runTry w with
  | (effects, .ok _) => effects
  | (effects, .error error) => effects ++ [Event.setFailed error.message]

/-! ## Vocabulary of the statements -/

/-- The string `search` occurs in `s` at position `p`. -/
def OccursAt (search s : JsString) (p : Nat) : Prop := p ≤ s.length ∧ search <+: s.drop p

/-- The comment is kept by the filter: `isNonMinimizedDiffComment` returns `true`. -/
def selected (runId : JsString) (c : Comment) : Bool :=
  match isNonMinimizedDiffComment runId c with
  | .ok true => true
  | _ => false

/-- The filter does not throw on the comment. -/
def filterReturns (runId : JsString) (c : Comment) : Bool :=
  match isNonMinimizedDiffComment runId c with
  | .ok _ => true
  | .error _ => false

/-- The plain substring test `String.prototype.includes( search )`: the scan of the whole
    string, from position 0. -/
def includes (s search : JsString) : Bool := decide (0 ≤ indexOf s search 0)

/-- A code unit of a decimal digit. -/
def isDigitUnit (c : Nat) : Bool := 48 ≤ c && c ≤ 57

/-- The number that a list of digit code units denotes. -/
def ofDecimal (s : JsString) : Nat := s.foldl (fun acc c => 10 * acc + (c - 48)) 0

/-! ## Concrete inputs -/

/-- A visible comment that run 41 of the action posted. -/
def staleComment : Comment :=
  ⟨lit "c41", commentBody (decimal 41) (lit "-x"), false,
    some ⟨some (lit "b1"), some (lit "github-actions")⟩⟩

/-- A visible comment whose author is `null` (the account was deleted). -/
def ghostComment : Comment := ⟨lit "c2", lit "hello", false, none⟩

/-- A visible comment of a human author: the `Bot` fragment selects nothing. -/
def humanComment : Comment := ⟨lit "c3", commentHeader, false, some ⟨none, none⟩⟩

/-- A comment of the action that is already minimized. -/
def minimizedComment : Comment :=
  ⟨lit "c40", commentBody (decimal 40) (lit "-y"), true,
    some ⟨some (lit "b1"), some (lit "github-actions")⟩⟩

/-- Run 42 on pull request 7: the inputs are present, the diff file holds `" +a\n"`, the
    query answers `comments`, every mutation fails when `minimizeFails` is set, and
    `createComment` succeeds. -/
def exampleWorld (comments : List Comment) (minimizeFails : Bool) : World :=
  { runId := decimal 42
    issue := ⟨lit "o", lit "r", 7⟩
    getInput := fun name => if name = lit "diff-path" then .ok (lit "pr.diff") else .ok (lit "t")
    readFile := fun _ => .ok (lit " +a\n")
    graphql := fun _ => .ok ⟨some ⟨some ⟨comments⟩⟩⟩
    minimize := fun _ _ => if minimizeFails then .error (.error (lit "boom")) else .ok ()
    createComment := fun _ => .ok () }

/-! ## Strings: `indexOf`, prefixes and occurrences -/

theorem indexOfAux_nonneg_iff (search : JsString) (s : JsString) (k : Nat) :
    0 ≤ indexOfAux search s k ↔ ∃ i, i ≤ s.length ∧ search <+: s.drop i := by
  induction s generalizing k with
  | nil =>
    simp only [indexOfAux, List.length_nil, Nat.le_zero, List.drop_nil]
    by_cases h : search.isPrefixOf [] = true
    · simp only [h, if_true]
      exact ⟨fun _ => ⟨0, rfl, List.isPrefixOf_iff_prefix.mp h⟩, fun _ => Int.ofNat_nonneg k⟩
    · simp only [h]
      constructor
      · intro h0; simp at h0
      · rintro ⟨i, _, hi⟩
        exact absurd (List.isPrefixOf_iff_prefix.mpr hi) h
  | cons c cs ih =>
    simp only [indexOfAux]
    by_cases h : search.isPrefixOf (c :: cs) = true
    · simp only [h, if_true]
      exact ⟨fun _ => ⟨0, Nat.zero_le _, List.isPrefixOf_iff_prefix.mp h⟩,
        fun _ => Int.ofNat_nonneg k⟩
    · simp only [h]
      rw [if_neg (by simp), ih (k + 1)]
      constructor
      · rintro ⟨i, hi, hp⟩
        exact ⟨i + 1, by simpa using hi, by simpa using hp⟩
      · rintro ⟨i, hi, hp⟩
        cases i with
        | zero => exact absurd (List.isPrefixOf_iff_prefix.mpr (by simpa using hp)) h
        | succ j => exact ⟨j, by simpa using hi, by simpa using hp⟩

theorem indexOf_nonneg_iff (s search : JsString) (position : Nat) :
    0 ≤ indexOf s search position ↔
      ∃ p, min position s.length ≤ p ∧ OccursAt search s p := by
  unfold indexOf OccursAt
  rw [indexOfAux_nonneg_iff]
  constructor
  · rintro ⟨i, hi, hp⟩
    refine ⟨min position s.length + i, Nat.le_add_right _ _, ?_, ?_⟩
    · simp only [List.length_drop] at hi
      have : min position s.length ≤ s.length := Nat.min_le_right _ _
      omega
    · simpa [List.drop_drop, Nat.add_comm] using hp
  · rintro ⟨p, hp, hlen, hpre⟩
    refine ⟨p - min position s.length, ?_, ?_⟩
    · simp only [List.length_drop]; omega
    · rw [List.drop_drop]
      have : min position s.length + (p - min position s.length) = p := by omega
      rw [this]; exact hpre

theorem startsWith_iff (s search : JsString) : startsWith s search = true ↔ search <+: s := by
  unfold startsWith
  exact List.isPrefixOf_iff_prefix

theorem commentHeader_length : commentHeader.length = 52 := by decide

theorem runMarker_ne_nil (runId : JsString) : runMarker runId ≠ [] := by
  simp [runMarker, lit]

/-- With the header in front, the scan of `indexOf` starts at the header's length. -/
theorem indexOf_header_nonneg_iff (body search : JsString) (h : commentHeader <+: body) :
    0 ≤ indexOf body search commentHeader.length ↔
      ∃ p, commentHeader.length ≤ p ∧ OccursAt search body p := by
  rw [indexOf_nonneg_iff]
  have hlen : commentHeader.length ≤ body.length := h.length_le
  rw [Nat.min_eq_left hlen]

/-- C1: on a comment that carries an author record, `isNonMinimizedDiffComment` returns, and
    it returns `true` exactly when the four conditions hold: `isMinimized` is false, the
    login of the author is `github-actions`, the body starts with the header marker, and the
    run marker occurs in the body at no position at or after the length of the header
    marker. -/
theorem isNonMinimizedDiffComment_iff (runId id body : JsString) (isMinimized : Bool)
    (author : Author) :
    ∃ b, isNonMinimizedDiffComment runId ⟨id, body, isMinimized, some author⟩ = .ok b ∧
      (b = true ↔
        (isMinimized = false ∧ author.login = some (lit "github-actions") ∧
          commentHeader <+: body ∧
          ¬ ∃ p, commentHeader.length ≤ p ∧ OccursAt (runMarker runId) body p)) := by
  unfold isNonMinimizedDiffComment
  cases isMinimized with
  | true => exact ⟨false, by simp⟩
  | false =>
    by_cases hlogin : author.login = some (lit "github-actions")
    · by_cases hstart : startsWith body commentHeader = true
      · have hpre := (startsWith_iff _ _).mp hstart
        by_cases hidx : indexOf body (runMarker runId) commentHeader.length ≥ 0
        · refine ⟨false, by simp [hlogin, hstart, hidx], ?_⟩
          have := (indexOf_header_nonneg_iff body (runMarker runId) hpre).mp hidx
          simp [this]
        · refine ⟨true, by simp [hlogin, hstart, hidx], ?_⟩
          have := mt (indexOf_header_nonneg_iff body (runMarker runId) hpre).mpr hidx
          simp [hlogin, hpre, this]
      · refine ⟨false, by simp [hlogin, hstart], ?_⟩
        have := mt (startsWith_iff body commentHeader).mpr hstart
        simp [this]
    · exact ⟨false, by simp [hlogin], by simp [hlogin]⟩

/-- C3: on a minimized comment `isNonMinimizedDiffComment` returns `false` and does not
    throw, whatever the author (absent or not) and the body. -/
theorem isNonMinimizedDiffComment_minimized (runId id body : JsString)
    (author : Option Author) :
    isNonMinimizedDiffComment runId ⟨id, body, true, author⟩ = .ok false := by
  simp [isNonMinimizedDiffComment]

theorem commentBody_eq (runId diff : JsString) :
    commentBody runId diff =
      commentHeader ++ (runMarker runId ++ (diffMarkdownHeader ++ (trim diff ++ diffMarkdownFooter))) := by
  simp [commentBody, List.append_assoc]

/-- The body that run `runId` composes is rejected by the filter of the same run. -/
theorem isNonMinimizedDiffComment_own_comment (runId diff id : JsString)
    (authorId : Option JsString) :
    isNonMinimizedDiffComment runId
      ⟨id, commentBody runId diff, false, some ⟨authorId, some (lit "github-actions")⟩⟩
      = .ok false := by
  have hpre : commentHeader <+: commentBody runId diff := by
    rw [commentBody_eq]; exact List.prefix_append _ _
  have hidx : indexOf (commentBody runId diff) (runMarker runId) commentHeader.length ≥ 0 := by
    rw [ge_iff_le, indexOf_header_nonneg_iff _ _ hpre]
    refine ⟨commentHeader.length, le_refl _, hpre.length_le, ?_⟩
    rw [commentBody_eq, List.drop_left]
    exact List.prefix_append _ _
  simp [isNonMinimizedDiffComment, (startsWith_iff _ _).mpr hpre, hidx]

/-! ## Occurrences of the run marker -/

/-- An occurrence whose first code unit is not in `u` lies past `u`. -/
theorem infix_of_head_not_mem {c : Nat} {m u v : JsString}
    (h : (c :: m) <:+: u ++ v) (hc : c ∉ u) : (c :: m) <:+: v := by
  induction u with
  | nil => simpa using h
  | cons a u ih =>
    rw [List.cons_append, List.infix_cons_iff] at h
    rcases h with h | h
    · rw [List.cons_prefix_cons] at h
      exact absurd (h.1 ▸ List.mem_cons_self _ _) hc
    · exact ih h (fun hm => hc (List.mem_cons_of_mem _ hm))

/-- Two prefixes of one string that have the same length are equal. -/
theorem prefix_eq_of_length_eq {a b s : JsString} (ha : a <+: s) (hb : b <+: s)
    (hlen : a.length = b.length) : a = b :=
  (List.prefix_of_prefix_length_le ha hb (le_of_eq hlen)).eq_of_length hlen

theorem occursAt_iff_infix_split (search s : JsString) (p : Nat) :
    OccursAt search s p ↔ ∃ pre post, s = pre ++ search ++ post ∧ pre.length = p := by
  constructor
  · rintro ⟨hp, post, hpost⟩
    refine ⟨s.take p, post, ?_, by simp [hp]⟩
    rw [List.append_assoc, hpost, List.take_append_drop]
  · rintro ⟨pre, post, rfl, rfl⟩
    refine ⟨by simp, ?_⟩
    rw [List.append_assoc, List.drop_left]
    exact List.prefix_append _ _

theorem runMarker_not_prefix_header (runId rest : JsString) :
    ¬ runMarker runId <+: commentHeader ++ rest := by
  intro h
  have h1 : lit "<!-- R" <+: commentHeader ++ rest := by
    refine List.IsPrefix.trans ?_ h
    exact ⟨lit "unId: " ++ runId ++ lit " -->\n", by simp [runMarker, lit]⟩
  have h2 : lit "<!-- A" <+: commentHeader ++ rest :=
    List.IsPrefix.trans (List.isPrefixOf_iff_prefix.mp (by decide)) (List.prefix_append _ _)
  exact absurd (prefix_eq_of_length_eq h1 h2 (by decide)) (by decide)

theorem runMarker_cons (runId : JsString) :
    runMarker runId = 60 :: (lit "!-- RunId: " ++ runId ++ lit " -->\n") := by
  simp [runMarker, lit]

/-- No occurrence of a run marker starts inside the header marker. -/
theorem runMarker_infix_header_append (runId rest : JsString)
    (h : runMarker runId <:+: commentHeader ++ rest) : runMarker runId <:+: rest := by
  have hH : commentHeader = 60 :: commentHeader.tail := by decide
  rw [hH, List.cons_append, List.infix_cons_iff] at h
  rcases h with h | h
  · rw [← List.cons_append, ← hH] at h
    exact absurd h (runMarker_not_prefix_header runId rest)
  · rw [runMarker_cons] at h ⊢
    exact infix_of_head_not_mem h (by decide)

/-- The offset of the scan does not matter, for any run identifier. -/
theorem indexOf_runMarker_iff_isInfix (runId body : JsString) (h : commentHeader <+: body) :
    0 ≤ indexOf body (runMarker runId) commentHeader.length ↔ runMarker runId <:+: body := by
  rw [indexOf_header_nonneg_iff _ _ h]
  constructor
  · rintro ⟨p, _, hp⟩
    obtain ⟨pre, post, hs, _⟩ := (occursAt_iff_infix_split _ _ _).mp hp
    exact ⟨pre, post, hs.symm⟩
  · intro hin
    obtain ⟨rest, rfl⟩ := h
    obtain ⟨pre, post, hs⟩ := runMarker_infix_header_append runId rest hin
    refine ⟨(commentHeader ++ pre).length, by simp, ?_⟩
    rw [occursAt_iff_infix_split]
    exact ⟨commentHeader ++ pre, post, by simp [← hs, List.append_assoc], rfl⟩

/-! ## Decimal numerals -/

theorem digitChar_toNat (m : Nat) (h : m < 10) : (Nat.digitChar m).toNat = 48 + m := by
  interval_cases m <;> rfl

theorem toDigitsCore_append (fuel n : Nat) (ds : List Char) :
    Nat.toDigitsCore 10 fuel n ds = Nat.toDigitsCore 10 fuel n [] ++ ds := by
  induction fuel generalizing n ds with
  | zero => simp [Nat.toDigitsCore]
  | succ fuel ih =>
    simp only [Nat.toDigitsCore]
    split
    · simp
    · rw [ih (n / 10) (_ :: ds), ih (n / 10) [_]]
      simp

theorem toDigitsCore_digits (fuel n : Nat) :
    ∀ c ∈ (Nat.toDigitsCore 10 fuel n []).map Char.toNat, isDigitUnit c = true := by
  induction fuel generalizing n with
  | zero => simp [Nat.toDigitsCore]
  | succ fuel ih =>
    have hd : isDigitUnit (Nat.digitChar (n % 10)).toNat = true := by
      rw [digitChar_toNat _ (Nat.mod_lt _ (by decide))]
      have : n % 10 < 10 := Nat.mod_lt _ (by decide)
      simp [isDigitUnit]; omega
    simp only [Nat.toDigitsCore]
    split
    · intro c hc
      simp only [List.map_cons, List.map_nil, List.mem_singleton] at hc
      rw [hc]; exact hd
    · rw [toDigitsCore_append]
      intro c hc
      simp only [List.map_append, List.map_cons, List.map_nil, List.mem_append,
        List.mem_singleton] at hc
      rcases hc with hc | hc
      · exact ih _ c hc
      · rw [hc]; exact hd

theorem ofDecimal_append_singleton (s : JsString) (c : Nat) :
    ofDecimal (s ++ [c]) = 10 * ofDecimal s + (c - 48) := by
  simp [ofDecimal, List.foldl_append]

theorem ofDecimal_toDigitsCore (fuel n : Nat) (h : n < fuel) :
    ofDecimal ((Nat.toDigitsCore 10 fuel n []).map Char.toNat) = n := by
  induction fuel generalizing n with
  | zero => omega
  | succ fuel ih =>
    have hm : n % 10 < 10 := Nat.mod_lt _ (by decide)
    simp only [Nat.toDigitsCore]
    split
    · rename_i h0
      simp only [List.map_cons, List.map_nil, ofDecimal, List.foldl_cons, List.foldl_nil]
      rw [digitChar_toNat _ hm]
      omega
    · rename_i h0
      rw [toDigitsCore_append, List.map_append, List.map_cons, List.map_nil,
        ofDecimal_append_singleton, ih (n / 10) (by omega), digitChar_toNat _ hm]
      omega

theorem decimal_digits (n : Nat) : ∀ c ∈ decimal n, isDigitUnit c = true :=
  toDigitsCore_digits (n + 1) n

theorem ofDecimal_decimal (n : Nat) : ofDecimal (decimal n) = n :=
  ofDecimal_toDigitsCore (n + 1) n (Nat.lt_succ_self n)

theorem decimal_injective {n m : Nat} (h : decimal n = decimal m) : n = m := by
  have := congrArg ofDecimal h
  rwa [ofDecimal_decimal, ofDecimal_decimal] at this

/-- Two digit strings followed by the same non-digit are equal when one, with what follows
    it, is a prefix of the other with what follows it. -/
theorem digits_eq_of_isPrefix {r r' : JsString} {b : Nat} {t t' : JsString}
    (hr : ∀ c ∈ r, isDigitUnit c = true) (hr' : ∀ c ∈ r', isDigitUnit c = true)
    (hb : isDigitUnit b = false) (h : r ++ b :: t <+: r' ++ b :: t') : r = r' := by
  induction r generalizing r' with
  | nil =>
    cases r' with
    | nil => rfl
    | cons x r' =>
      simp only [List.nil_append, List.cons_append, List.cons_prefix_cons] at h
      have := hr' x (List.mem_cons_self _ _)
      rw [← h.1, hb] at this
      exact absurd this (by decide)
  | cons y r ih =>
    cases r' with
    | nil =>
      simp only [List.nil_append, List.cons_append, List.cons_prefix_cons] at h
      have := hr y (List.mem_cons_self _ _)
      rw [h.1, hb] at this
      exact absurd this (by decide)
    | cons x r' =>
      simp only [List.cons_append, List.cons_prefix_cons] at h
      rw [h.1, ih (fun c hc => hr c (List.mem_cons_of_mem _ hc))
        (fun c hc => hr' c (List.mem_cons_of_mem _ hc)) h.2]

theorem prefix_append_cases {l a b : JsString} (h : l <+: a ++ b) :
    l <+: a ∨ ∃ t, t ≠ [] ∧ l = a ++ t ∧ t <+: b := by
  rcases List.prefix_or_prefix_of_prefix h (List.prefix_append a b) with h1 | ⟨t, rfl⟩
  · exact Or.inl h1
  · by_cases ht : t = []
    · subst ht; exact Or.inl (by simp)
    · exact Or.inr ⟨t, ht, rfl, (List.prefix_append_right_inj a).mp h⟩

/-- An occurrence in `t ++ g :: gs` of a string that does not hold `g`, and whose first code
    unit is not in `g :: gs`, lies inside `t`. -/
theorem infix_left_of_infix_append {c g : Nat} {a gs : JsString} (t : JsString)
    (hg : g ∉ c :: a) (hc : c ∉ g :: gs) (h : (c :: a) <:+: t ++ g :: gs) :
    (c :: a) <:+: t := by
  induction t with
  | nil =>
    rw [List.nil_append] at h
    exact absurd (h.subset (List.mem_cons_self _ _)) hc
  | cons x t ih =>
    rw [List.cons_append, List.infix_cons_iff] at h
    rcases h with h | h
    · rw [← List.cons_append] at h
      rcases prefix_append_cases h with h1 | ⟨u, hu, hsplit, hpre⟩
      · exact h1.isInfix
      · cases u with
        | nil => exact absurd rfl hu
        | cons y u =>
          rw [List.cons_prefix_cons] at hpre
          have hy : y ∈ c :: a := by rw [hsplit]; simp
          rw [hpre.1] at hy
          exact absurd hy hg
    · exact List.infix_cons (ih h)

theorem trim_isInfix (s : JsString) : trim s <:+: s :=
  List.IsInfix.trans (List.rdropWhile_prefix _ _).isInfix (List.dropWhile_suffix _).isInfix

/-- The run marker of one decimal run identifier occurs nowhere in the body composed for
    another one, when the diff does not hold the text that opens a run marker. -/
theorem runMarker_not_infix_commentBody (n m : Nat) (hnm : n ≠ m) (diff : JsString)
    (hd : ¬ lit "<!-- RunId: " <:+: diff) :
    ¬ runMarker (decimal n) <:+: commentBody (decimal m) diff := by
  intro h
  rw [commentBody_eq] at h
  have h1 := runMarker_infix_header_append _ _ h
  have hX : runMarker (decimal m) ++ (diffMarkdownHeader ++ (trim diff ++ diffMarkdownFooter))
      = 60 :: ((lit "!-- RunId: " ++ decimal m ++ lit " -->\n" ++ diffMarkdownHeader)
          ++ (trim diff ++ diffMarkdownFooter)) := by
    simp [runMarker, lit, List.append_assoc]
  rw [hX, List.infix_cons_iff] at h1
  rcases h1 with h1 | h1
  · have hL : runMarker (decimal n) = lit "<!-- RunId: " ++ (decimal n ++ 32 :: lit "-->\n") := by
      simp [runMarker, lit]
    have hR : 60 :: ((lit "!-- RunId: " ++ decimal m ++ lit " -->\n" ++ diffMarkdownHeader)
          ++ (trim diff ++ diffMarkdownFooter))
        = lit "<!-- RunId: " ++ (decimal m ++ 32 :: (lit "-->\n" ++ diffMarkdownHeader
          ++ (trim diff ++ diffMarkdownFooter))) := by
      simp [lit, List.append_assoc]
    rw [hL, hR, List.prefix_append_right_inj] at h1
    exact hnm (decimal_injective
      (digits_eq_of_isPrefix (decimal_digits n) (decimal_digits m) (by decide) h1))
  · rw [runMarker_cons] at h1
    have h60 : (60 : Nat) ∉ lit "!-- RunId: " ++ decimal m ++ lit " -->\n" ++ diffMarkdownHeader := by
      simp only [List.mem_append, not_or]
      refine ⟨⟨⟨by decide, ?_⟩, by decide⟩, by decide⟩
      intro hmem
      exact absurd (decimal_digits m 60 hmem) (by decide)
    have h2 := infix_of_head_not_mem h1 h60
    have h3 : (60 :: lit "!-- RunId: ") <:+: trim diff ++ 10 :: lit "```" := by
      refine List.IsInfix.trans (List.IsPrefix.isInfix ?_) h2
      exact ⟨decimal n ++ lit " -->\n", by simp [List.append_assoc]⟩
    have h4 := infix_left_of_infix_append (trim diff) (by decide) (by decide) h3
    exact hd (List.IsInfix.trans h4 (trim_isInfix diff))

/-- C6: for distinct naturals `n` and `m` written in decimal and a diff in which
    `<!-- RunId: ` does not occur, the comment that run `m` posted (not minimized, authored
    by `github-actions`) is selected by `isNonMinimizedDiffComment` for run `n`. -/
theorem stale_comment_selected (n m : Nat) (hnm : n ≠ m) (id diff : JsString)
    (authorId : Option JsString) (hd : ¬ lit "<!-- RunId: " <:+: diff) :
    isNonMinimizedDiffComment (decimal n)
      ⟨id, commentBody (decimal m) diff, false, some ⟨authorId, some (lit "github-actions")⟩⟩
      = .ok true := by
  have hpre : commentHeader <+: commentBody (decimal m) diff := by
    rw [commentBody_eq]; exact List.prefix_append _ _
  have hidx : ¬ indexOf (commentBody (decimal m) diff) (runMarker (decimal n))
      commentHeader.length ≥ 0 := by
    rw [ge_iff_le, indexOf_runMarker_iff_isInfix _ _ hpre]
    exact runMarker_not_infix_commentBody n m hnm diff hd
  simp [isNonMinimizedDiffComment, (startsWith_iff _ _).mpr hpre, hidx]

theorem stale_comment_selected_witness :
    (42 ≠ 41 ∧ ¬ lit "<!-- RunId: " <:+: lit "+a\n-b\n") ∧
    isNonMinimizedDiffComment (decimal 42)
      ⟨lit "c1", commentBody (decimal 41) (lit "+a\n-b\n"), false,
        some ⟨some (lit "b1"), some (lit "github-actions")⟩⟩ = .ok true :=
  ⟨⟨by decide, by decide⟩,
    stale_comment_selected 42 41 (by decide) (lit "c1") (lit "+a\n-b\n") (some (lit "b1"))
      (by decide)⟩

/-! ## `trim` -/

theorem rdropWhile_append_of_pos {p : Nat → Bool} (x post : JsString)
    (h : ∀ c ∈ post, p c = true) : (x ++ post).rdropWhile p = x.rdropWhile p := by
  simp only [List.rdropWhile, List.reverse_append]
  rw [List.dropWhile_append_of_pos (fun a ha => h a (List.mem_reverse.mp ha))]

theorem rdropWhile_append_rtakeWhile (p : Nat → Bool) (x : JsString) :
    x.rdropWhile p ++ x.rtakeWhile p = x := by
  simp only [List.rdropWhile, List.rtakeWhile, ← List.reverse_append,
    List.takeWhile_append_dropWhile, List.reverse_reverse]

/-- Padding a string with stripped code units on both sides does not change its `trim`. -/
theorem trim_pad (pre post s : JsString) (hpre : ∀ c ∈ pre, isTrimmed c = true)
    (hpost : ∀ c ∈ post, isTrimmed c = true) : trim (pre ++ s ++ post) = trim s := by
  unfold trim
  rw [List.append_assoc, List.dropWhile_append_of_pos hpre]
  by_cases hs : ∀ c ∈ s, isTrimmed c = true
  · have h1 : List.dropWhile isTrimmed (s ++ post) = [] := by
      rw [List.dropWhile_eq_nil_iff]
      intro c hc
      rcases List.mem_append.mp hc with hc | hc
      · exact hs c hc
      · exact hpost c hc
    rw [h1, List.dropWhile_eq_nil_iff.mpr hs]
  · have hne : ¬ (List.dropWhile isTrimmed s).isEmpty = true := by
      rw [List.isEmpty_iff, List.dropWhile_eq_nil_iff]
      exact hs
    rw [List.dropWhile_append, if_neg hne, rdropWhile_append_of_pos _ _ hpost]

/-- The string `trim s` is `s` without a leading and a trailing run of stripped code units,
    and it neither starts nor ends with one. -/
theorem trim_spec (s : JsString) :
    (∃ pre post, s = pre ++ trim s ++ post ∧ (∀ c ∈ pre, isTrimmed c = true) ∧
      (∀ c ∈ post, isTrimmed c = true)) ∧
    (∀ c, (trim s).head? = some c → isTrimmed c = false) ∧
    (∀ c, (trim s).getLast? = some c → isTrimmed c = false) := by
  refine ⟨⟨s.takeWhile isTrimmed, (s.dropWhile isTrimmed).rtakeWhile isTrimmed, ?_,
    fun c hc => List.mem_takeWhile_imp hc, fun c hc => List.mem_rtakeWhile_imp hc⟩, ?_, ?_⟩
  · unfold trim
    rw [List.append_assoc, rdropWhile_append_rtakeWhile, List.takeWhile_append_dropWhile]
  · intro c hc
    have hne : trim s ≠ [] := by intro h; rw [h] at hc; simp at hc
    have hpre : trim s <+: s.dropWhile isTrimmed := List.rdropWhile_prefix _ _
    have hne2 : s.dropWhile isTrimmed ≠ [] := by
      intro h; rw [h] at hpre; exact hne (List.prefix_nil.mp hpre)
    have hhead := List.head_dropWhile_not isTrimmed s hne2
    rw [← hpre.head hne] at hhead
    rw [List.head?_eq_head hne] at hc
    rw [← Option.some.inj hc]; exact hhead
  · intro c hc
    have hne : trim s ≠ [] := by intro h; rw [h] at hc; simp at hc
    have hlast := List.rdropWhile_last_not isTrimmed (s.dropWhile isTrimmed) hne
    rw [List.getLast?_eq_getLast _ hne] at hc
    have hc2 := Option.some.inj hc
    unfold trim at hc2
    rw [hc2] at hlast
    simpa using hlast

/-! ## The pipeline -/

theorem getPullRequestComments_fst (w : World) (pullRequest : Issue) :
    (getPullRequestComments w pullRequest).1 =
      [Event.detailedInfo (lit "Querying pull request comments") (.issue pullRequest),
       Event.query pullRequest] := by
  unfold getPullRequestComments
  cases w.graphql pullRequest with
  | error e => rfl
  | ok result =>
    cases result with
    | mk repository =>
      cases repository with
      | none => rfl
      | some repository =>
        cases repository with
        | mk pullRequestNode =>
          cases pullRequestNode <;> rfl

theorem getPullRequestComments_eq (w : World) (pullRequest : Issue) :
    getPullRequestComments w pullRequest =
      ([Event.detailedInfo (lit "Querying pull request comments") (.issue pullRequest),
        Event.query pullRequest], (getPullRequestComments w pullRequest).2) := by
  rw [← getPullRequestComments_fst]

theorem filterComments_of_returns (runId : JsString) (comments : List Comment)
    (h : ∀ c ∈ comments, filterReturns runId c = true) :
    filterComments runId comments = .ok (comments.filter (selected runId)) := by
  induction comments with
  | nil => rfl
  | cons c cs ih =>
    have hc := h c (List.mem_cons_self _ _)
    have hcs := ih (fun x hx => h x (List.mem_cons_of_mem _ hx))
    unfold filterReturns at hc
    unfold filterComments
    rw [hcs]
    cases hres : isNonMinimizedDiffComment runId c with
    | error e => rw [hres] at hc; exact absurd hc (by simp)
    | ok keep =>
      cases keep <;> simp [List.filter, selected, hres]

theorem minimizeAll_remote (w : World) (k : Nat) (comments : List Comment) :
    (minimizeAll w k comments).filter Event.isRemote =
      comments.map (fun c => Event.mutation c.id) := by
  induction comments generalizing k with
  | nil => rfl
  | cons c cs ih =>
    unfold minimizeAll minimizeComment
    cases w.minimize k c.id <;> simp [List.filter, Event.isRemote, ih]

/-- The effects of a run in which nothing throws outside the minimize mutations. -/
theorem run_of_success (w : World) (diffPath token diff : JsString) (comments : List Comment)
    (hpath : w.getInput (lit "diff-path") = .ok diffPath)
    (htoken : w.getInput (lit "github-token") = .ok token)
    (hread : w.readFile diffPath = .ok diff)
    (hfetch : (getPullRequestComments w w.issue).2 = .ok comments)
    (hfilter : ∀ c ∈ comments, filterReturns w.runId c = true)
    (hcreate : w.createComment
      ⟨w.issue.owner, w.issue.repo, w.issue.number, commentBody w.runId diff⟩ = .ok ()) :
    run w =
      [Event.info (lit "Reading diff: " ++ diffPath)] ++
      [Event.detailedInfo (lit "Querying pull request comments") (.issue w.issue),
        Event.query w.issue] ++
      [Event.detailedInfo (lit "Fetched comments") (.comments comments)] ++
      minimizeAll w 0 (comments.filter (selected w.runId)) ++
      [Event.detailedInfo (lit "Creating comment") (.commentArgs
          ⟨w.issue.owner, w.issue.repo, w.issue.number, commentBody w.runId diff⟩),
        Event.createComment
          ⟨w.issue.owner, w.issue.repo, w.issue.number, commentBody w.runId diff⟩] := by
  unfold run runTry
  rw [getPullRequestComments_eq, hfetch]
  simp only [hpath, htoken, hread, filterComments_of_returns _ _ hfilter, hcreate]

/-- C9: when the inputs and the diff are read, the query returns `comments`, the filter
    throws on none of them and `createComment` succeeds, the remote calls of `run` are, in
    order: the query, one minimize mutation per selected comment with its id, in the order
    of `comments`, and one `createComment` for the run context. -/
theorem run_remote_calls (w : World) (diffPath token diff : JsString) (comments : List Comment)
    (hpath : w.getInput (lit "diff-path") = .ok diffPath)
    (htoken : w.getInput (lit "github-token") = .ok token)
    (hread : w.readFile diffPath = .ok diff)
    (hfetch : (getPullRequestComments w w.issue).2 = .ok comments)
    (hfilter : ∀ c ∈ comments, filterReturns w.runId c = true)
    (hcreate : w.createComment
      ⟨w.issue.owner, w.issue.repo, w.issue.number, commentBody w.runId diff⟩ = .ok ()) :
    (run w).filter Event.isRemote =
      [Event.query w.issue] ++
      (comments.filter (selected w.runId)).map (fun c => Event.mutation c.id) ++
      [Event.createComment
        ⟨w.issue.owner, w.issue.repo, w.issue.number, commentBody w.runId diff⟩] := by
  rw [run_of_success w diffPath token diff comments hpath htoken hread hfetch hfilter hcreate]
  simp only [List.filter_append, minimizeAll_remote]
  simp [List.filter, Event.isRemote]

theorem minimizeAll_not_create (w : World) (k : Nat) (comments : List Comment)
    (args : CommentArgs) : Event.createComment args ∉ minimizeAll w k comments := by
  induction comments generalizing k with
  | nil => simp [minimizeAll]
  | cons c cs ih =>
    unfold minimizeAll minimizeComment
    cases w.minimize k c.id <;> simp [ih]

/-- Every `createComment` call of a run carries the run context and the body composed from
    the diff that was read. -/
theorem run_createComment_args (w : World) (args : CommentArgs)
    (h : Event.createComment args ∈ run w) :
    ∃ diffPath diff, w.getInput (lit "diff-path") = .ok diffPath ∧
      w.readFile diffPath = .ok diff ∧
      args = ⟨w.issue.owner, w.issue.repo, w.issue.number, commentBody w.runId diff⟩ := by
  unfold run runTry at h
  rw [getPullRequestComments_eq] at h
  cases hpath : w.getInput (lit "diff-path") with
  | error e => simp [hpath] at h
  | ok diffPath =>
    cases htoken : w.getInput (lit "github-token") with
    | error e => simp [hpath, htoken] at h
    | ok token =>
      cases hread : w.readFile diffPath with
      | error e => simp [hpath, htoken, hread] at h
      | ok diff =>
        refine ⟨diffPath, diff, rfl, hread, ?_⟩
        cases hfetch : (getPullRequestComments w w.issue).2 with
        | error e => simp [hpath, htoken, hread, hfetch] at h
        | ok comments =>
          cases hfilter : filterComments w.runId comments with
          | error e => simp [hpath, htoken, hread, hfetch, hfilter] at h
          | ok outdated =>
            cases hcreate : w.createComment
              ⟨w.issue.owner, w.issue.repo, w.issue.number, commentBody w.runId diff⟩ with
            | error e =>
              simp [hpath, htoken, hread, hfetch, hfilter, hcreate, minimizeAll_not_create] at h
              exact h
            | ok u =>
              simp [hpath, htoken, hread, hfetch, hfilter, hcreate, minimizeAll_not_create] at h
              exact h

/-- C2: on a comment that is not minimized and whose author is `null`,
    `isNonMinimizedDiffComment` does not return `false`: reading `login` throws. -/
theorem isNonMinimizedDiffComment_null_author_throws (runId id body : JsString) :
    isNonMinimizedDiffComment runId ⟨id, body, false, none⟩ =
      .error (.nullRead (lit "login")) := rfl

/-- C7: the query returns a stale comment of the action, whose mutation would fail, and a
    comment whose author is `null`; inputs, query and `createComment` succeed.  The filter
    throws before the loop: no mutation is issued, no comment is created and the run is
    marked failed. -/
theorem run_stale_then_null_author :
    run (exampleWorld [staleComment, ghostComment] true) =
      [Event.info (lit "Reading diff: pr.diff"),
       Event.detailedInfo (lit "Querying pull request comments") (.issue ⟨lit "o", lit "r", 7⟩),
       Event.query ⟨lit "o", lit "r", 7⟩,
       Event.detailedInfo (lit "Fetched comments") (.comments [staleComment, ghostComment]),
       Event.setFailed (lit "Cannot read properties of null (reading \x27login\x27)")] := by
  decide

/-- C8: inputs, query and `createComment` all succeed, and the only fetched comment has a
    `null` author: the run is marked failed, with the message of the `TypeError`. -/
theorem run_null_author_marks_failed :
    run (exampleWorld [ghostComment] false) =
      [Event.info (lit "Reading diff: pr.diff"),
       Event.detailedInfo (lit "Querying pull request comments") (.issue ⟨lit "o", lit "r", 7⟩),
       Event.query ⟨lit "o", lit "r", 7⟩,
       Event.detailedInfo (lit "Fetched comments") (.comments [ghostComment]),
       Event.setFailed (lit "Cannot read properties of null (reading \x27login\x27)")] := by
  decide

theorem filterComments_cons_of_rejected (runId : JsString) (c : Comment) (cs : List Comment)
    (h : isNonMinimizedDiffComment runId c = .ok false) :
    filterComments runId (c :: cs) = filterComments runId cs := by
  rw [filterComments, h]
  cases filterComments runId cs <;> simp

theorem filterComments_insert_rejected (runId : JsString) (c : Comment)
    (h : isNonMinimizedDiffComment runId c = .ok false) (before after : List Comment) :
    filterComments runId (before ++ c :: after) = filterComments runId (before ++ after) := by
  induction before with
  | nil => exact filterComments_cons_of_rejected runId c after h
  | cons b bs ih =>
    rw [List.cons_append, List.cons_append, filterComments, filterComments, ih]

/-- C4: the comment that run `runId` posts (the composed body, not minimized, authored by
    `github-actions`) is not selected by `isNonMinimizedDiffComment` for the same `runId`;
    so the comments a rerun minimizes are those it would minimize if that comment were not
    in the fetched list. -/
theorem own_comment_not_selected (runId diff id : JsString) (authorId : Option JsString) :
    isNonMinimizedDiffComment runId
        ⟨id, commentBody runId diff, false, some ⟨authorId, some (lit "github-actions")⟩⟩
        = .ok false ∧
    ∀ before after : List Comment,
      filterComments runId (before ++
        ⟨id, commentBody runId diff, false, some ⟨authorId, some (lit "github-actions")⟩⟩
          :: after) = filterComments runId (before ++ after) :=
  ⟨isNonMinimizedDiffComment_own_comment runId diff id authorId,
    filterComments_insert_rejected runId _
      (isNonMinimizedDiffComment_own_comment runId diff id authorId)⟩

theorem includes_iff_isInfix (s search : JsString) : includes s search = true ↔ search <:+: s := by
  unfold includes
  rw [decide_eq_true_iff, indexOf_nonneg_iff]
  constructor
  · rintro ⟨p, _, hp⟩
    obtain ⟨pre, post, hs, _⟩ := (occursAt_iff_infix_split _ _ _).mp hp
    exact ⟨pre, post, hs.symm⟩
  · rintro ⟨pre, post, hs⟩
    exact ⟨pre.length, by simp, (occursAt_iff_infix_split _ _ _).mpr ⟨pre, post, hs.symm, rfl⟩⟩

/-- C10: for a body that starts with the header marker and a decimal run identifier, the
    search of `indexOf` from the length of the header marker finds the run marker exactly
    when the run marker occurs in the body at all, that is exactly when the plain substring
    test `includes` finds it. -/
theorem indexOf_offset_irrelevant (n : Nat) (body : JsString)
    (h : startsWith body commentHeader = true) :
    (indexOf body (runMarker (decimal n)) commentHeader.length ≥ 0 ↔
      runMarker (decimal n) <:+: body) ∧
    (indexOf body (runMarker (decimal n)) commentHeader.length ≥ 0 ↔
      includes body (runMarker (decimal n)) = true) := by
  have h1 := indexOf_runMarker_iff_isInfix (decimal n) body ((startsWith_iff _ _).mp h)
  exact ⟨h1, h1.trans (includes_iff_isInfix _ _).symm⟩

/-- C5: the body composed for run identifier `runId` and diff `diff` is the header marker,
    the run marker line of `runId`, the opening fence, `trim diff` and the closing fence;
    it starts with the header marker followed by the run marker; removing that prefix, the
    opening fence and the closing fence leaves `trim diff`, which is `diff` without its
    leading and trailing whitespace; padding the diff with whitespace does not change the
    body; and it is the body of every `createComment` call of a run that read `diff`. -/
theorem commentBody_roundtrip (runId diff : JsString) :
    commentBody runId diff =
        lit "<!-- ActionId: pull-request-diff-comment-action -->\n" ++
          (lit "<!-- RunId: " ++ runId ++ lit " -->\n") ++ lit "```diff\n" ++ trim diff ++
          lit "\n```" ∧
    commentHeader ++ runMarker runId <+: commentBody runId diff ∧
    ((commentBody runId diff).drop
        (commentHeader ++ runMarker runId ++ diffMarkdownHeader).length).rdrop
        diffMarkdownFooter.length = trim diff ∧
    ((∃ pre post, diff = pre ++ trim diff ++ post ∧ (∀ c ∈ pre, isTrimmed c = true) ∧
        (∀ c ∈ post, isTrimmed c = true)) ∧
      (∀ c, (trim diff).head? = some c → isTrimmed c = false) ∧
      (∀ c, (trim diff).getLast? = some c → isTrimmed c = false)) ∧
    (∀ pre post : JsString, (∀ c ∈ pre, isTrimmed c = true) → (∀ c ∈ post, isTrimmed c = true) →
      commentBody runId (pre ++ diff ++ post) = commentBody runId diff) ∧
    (∀ (w : World) (diffPath : JsString) (args : CommentArgs), w.runId = runId →
      w.getInput (lit "diff-path") = .ok diffPath → w.readFile diffPath = .ok diff →
      Event.createComment args ∈ run w → args.body = commentBody runId diff) := by
  refine ⟨rfl, ?_, ?_, trim_spec diff, ?_, ?_⟩
  · unfold commentBody
    simp only [List.append_assoc]
    exact (List.prefix_append_right_inj _).mpr (List.prefix_append _ _)
  · have : commentBody runId diff =
        (commentHeader ++ runMarker runId ++ diffMarkdownHeader) ++
          (trim diff ++ diffMarkdownFooter) := by
      simp [commentBody, List.append_assoc]
    rw [this, List.drop_left, List.rdrop_append_length]
  · intro pre post hpre hpost
    unfold commentBody
    rw [trim_pad pre post diff hpre hpost]
  · intro w diffPath args hrun hpath hread hmem
    obtain ⟨diffPath', diff', hpath', hread', hargs⟩ := run_createComment_args w args hmem
    rw [hpath] at hpath'
    have hp : diffPath = diffPath' := by injection hpath'
    rw [← hp, hread] at hread'
    have hd : diff = diff' := by injection hread'
    rw [hargs, ← hd, hrun]

theorem commentBody_roundtrip_witness :
    commentBody (decimal 42) (lit " +a\n") =
      lit "<!-- ActionId: pull-request-diff-comment-action -->\n<!-- RunId: 42 -->\n```diff\n+a\n```" ∧
    commentBody (decimal 42) (lit "\n\t" ++ lit " +a\n" ++ lit "  ") =
      commentBody (decimal 42) (lit " +a\n") ∧
    Event.createComment ⟨lit "o", lit "r", 7, commentBody (decimal 42) (lit " +a\n")⟩
      ∈ run (exampleWorld [] false) ∧
    (⟨lit "o", lit "r", 7, commentBody (decimal 42) (lit " +a\n")⟩ : CommentArgs).body =
      commentBody (decimal 42) (lit " +a\n") :=
  ⟨(commentBody_roundtrip (decimal 42) (lit " +a\n")).1.trans (by decide),
    (commentBody_roundtrip (decimal 42) (lit " +a\n")).2.2.2.2.1 (lit "\n\t") (lit "  ")
      (by decide) (by decide),
    by decide,
    (commentBody_roundtrip (decimal 42) (lit " +a\n")).2.2.2.2.2 (exampleWorld [] false)
      (lit "pr.diff") ⟨lit "o", lit "r", 7, commentBody (decimal 42) (lit " +a\n")⟩
      rfl rfl rfl (by decide)⟩

theorem run_remote_calls_witness :
    (∀ c ∈ [staleComment, minimizedComment, humanComment],
      filterReturns (decimal 42) c = true) ∧
    (run (exampleWorld [staleComment, minimizedComment, humanComment] true)).filter
        Event.isRemote =
      [Event.query ⟨lit "o", lit "r", 7⟩, Event.mutation (lit "c41"),
       Event.createComment ⟨lit "o", lit "r", 7,
         lit "<!-- ActionId: pull-request-diff-comment-action -->\n<!-- RunId: 42 -->\n```diff\n+a\n```"⟩] :=
  ⟨by decide,
    (run_remote_calls (exampleWorld [staleComment, minimizedComment, humanComment] true)
      (lit "pr.diff") (lit "t") (lit " +a\n") [staleComment, minimizedComment, humanComment]
      rfl rfl rfl rfl (by decide) rfl).trans (by decide)⟩

theorem indexOf_offset_irrelevant_witness :
    startsWith (commentBody (decimal 42) (lit "+a")) commentHeader = true ∧
    (indexOf (commentBody (decimal 42) (lit "+a")) (runMarker (decimal 42))
        commentHeader.length ≥ 0 ↔
      runMarker (decimal 42) <:+: commentBody (decimal 42) (lit "+a")) ∧
    (indexOf (commentBody (decimal 42) (lit "+a")) (runMarker (decimal 42))
        commentHeader.length ≥ 0 ↔
      includes (commentBody (decimal 42) (lit "+a")) (runMarker (decimal 42)) = true) :=
  ⟨by decide, indexOf_offset_irrelevant 42 (commentBody (decimal 42) (lit "+a")) (by decide)⟩

/-! ## The failure boundary of `run` -/

/-- A missing `diff-path` input: no effect but `setFailed`, with the message of the error. -/
theorem run_of_diffPath_error (w : World) (e : Thrown)
    (hpath : w.getInput (lit "diff-path") = .error e) :
    run w = [Event.setFailed e.message] := by
  simp [run, runTry, hpath]

/-- A missing `github-token` input: no effect but `setFailed`, with the message of the
    error. -/
theorem run_of_token_error (w : World) (diffPath : JsString) (e : Thrown)
    (hpath : w.getInput (lit "diff-path") = .ok diffPath)
    (htoken : w.getInput (lit "github-token") = .error e) :
    run w = [Event.setFailed e.message] := by
  simp [run, runTry, hpath, htoken]

/-- The diff file cannot be read: no remote call, and `setFailed` with the message. -/
theorem run_of_readFile_error (w : World) (diffPath token : JsString) (e : Thrown)
    (hpath : w.getInput (lit "diff-path") = .ok diffPath)
    (htoken : w.getInput (lit "github-token") = .ok token)
    (hread : w.readFile diffPath = .error e) :
    run w = [Event.info (lit "Reading diff: " ++ diffPath), Event.setFailed e.message] := by
  simp [run, runTry, hpath, htoken, hread]

/-- The comment query fails: the query is the only remote call, and `setFailed` reports the
    message. -/
theorem run_of_fetch_error (w : World) (diffPath token diff : JsString) (e : Thrown)
    (hpath : w.getInput (lit "diff-path") = .ok diffPath)
    (htoken : w.getInput (lit "github-token") = .ok token)
    (hread : w.readFile diffPath = .ok diff)
    (hfetch : (getPullRequestComments w w.issue).2 = .error e) :
    run w =
      [Event.info (lit "Reading diff: " ++ diffPath),
       Event.detailedInfo (lit "Querying pull request comments") (.issue w.issue),
       Event.query w.issue,
       Event.setFailed e.message] := by
  unfold run runTry
  rw [getPullRequestComments_eq, hfetch]
  simp [hpath, htoken, hread]

/-- The filter throws on the first fetched comment that is not minimized and has a `null`
    author. -/
theorem filterComments_of_throws (runId : JsString) (comments : List Comment)
    (h : ∃ c ∈ comments, filterReturns runId c = false) :
    filterComments runId comments = .error (.nullRead (lit "login")) := by
  induction comments with
  | nil => obtain ⟨c, hc, _⟩ := h; simp at hc
  | cons c cs ih =>
    unfold filterComments
    cases hres : isNonMinimizedDiffComment runId c with
    | error e =>
      have he : e = .nullRead (lit "login") := by
        unfold isNonMinimizedDiffComment at hres
        split at hres
        · simp at hres
        · split at hres
          · injection hres with hres; exact hres.symm
          · split at hres
            · simp at hres
            · split at hres
              · simp at hres
              · split at hres <;> simp at hres
      rw [he]
    | ok keep =>
      have hcs : ∃ x ∈ cs, filterReturns runId x = false := by
        obtain ⟨x, hx, hxf⟩ := h
        rcases List.mem_cons.mp hx with rfl | hx
        · simp [filterReturns, hres] at hxf
        · exact ⟨x, hx, hxf⟩
      simp [ih hcs]

/-- The filter throws: the query is the only remote call, and `setFailed` reports the
    `TypeError`. -/
theorem run_of_filter_error (w : World) (diffPath token diff : JsString)
    (comments : List Comment)
    (hpath : w.getInput (lit "diff-path") = .ok diffPath)
    (htoken : w.getInput (lit "github-token") = .ok token)
    (hread : w.readFile diffPath = .ok diff)
    (hfetch : (getPullRequestComments w w.issue).2 = .ok comments)
    (hfilter : ∃ c ∈ comments, filterReturns w.runId c = false) :
    run w =
      [Event.info (lit "Reading diff: " ++ diffPath),
       Event.detailedInfo (lit "Querying pull request comments") (.issue w.issue),
       Event.query w.issue,
       Event.detailedInfo (lit "Fetched comments") (.comments comments),
       Event.setFailed (Thrown.nullRead (lit "login")).message] := by
  unfold run runTry
  rw [getPullRequestComments_eq, hfetch]
  simp [hpath, htoken, hread, filterComments_of_throws _ _ hfilter]

/-- The call `createComment` fails: it is the last effect before `setFailed`, which reports
    the message. -/
theorem run_of_create_error (w : World) (diffPath token diff : JsString)
    (comments : List Comment) (e : Thrown)
    (hpath : w.getInput (lit "diff-path") = .ok diffPath)
    (htoken : w.getInput (lit "github-token") = .ok token)
    (hread : w.readFile diffPath = .ok diff)
    (hfetch : (getPullRequestComments w w.issue).2 = .ok comments)
    (hfilter : ∀ c ∈ comments, filterReturns w.runId c = true)
    (hcreate : w.createComment
      ⟨w.issue.owner, w.issue.repo, w.issue.number, commentBody w.runId diff⟩ = .error e) :
    run w =
      [Event.info (lit "Reading diff: " ++ diffPath)] ++
      [Event.detailedInfo (lit "Querying pull request comments") (.issue w.issue),
        Event.query w.issue] ++
      [Event.detailedInfo (lit "Fetched comments") (.comments comments)] ++
      minimizeAll w 0 (comments.filter (selected w.runId)) ++
      [Event.detailedInfo (lit "Creating comment") (.commentArgs
          ⟨w.issue.owner, w.issue.repo, w.issue.number, commentBody w.runId diff⟩),
        Event.createComment
          ⟨w.issue.owner, w.issue.repo, w.issue.number, commentBody w.runId diff⟩] ++
      [Event.setFailed e.message] := by
  unfold run runTry
  rw [getPullRequestComments_eq, hfetch]
  simp only [hpath, htoken, hread, filterComments_of_returns _ _ hfilter, hcreate]

theorem minimizeAll_mutations (w : World) (k : Nat) (comments : List Comment) :
    (minimizeAll w k comments).filter Event.isMutation =
      comments.map (fun c => Event.mutation c.id) := by
  induction comments generalizing k with
  | nil => rfl
  | cons c cs ih =>
    unfold minimizeAll minimizeComment
    cases w.minimize k c.id <;> simp [List.filter, Event.isMutation, ih]

theorem minimizeAll_not_setFailed (w : World) (k : Nat) (comments : List Comment) :
    (minimizeAll w k comments).filter Event.isSetFailed = [] := by
  induction comments generalizing k with
  | nil => rfl
  | cons c cs ih =>
    unfold minimizeAll minimizeComment
    cases w.minimize k c.id <;> simp [List.filter, Event.isSetFailed, ih]

/-- When the filter throws on no fetched comment, a failing minimize mutation is not fatal:
    whatever the mutations answer, every selected comment gets its mutation, the comment is
    created and `setFailed` is not called. -/
theorem run_minimize_failures_not_fatal (w : World) (diffPath token diff : JsString)
    (comments : List Comment)
    (hpath : w.getInput (lit "diff-path") = .ok diffPath)
    (htoken : w.getInput (lit "github-token") = .ok token)
    (hread : w.readFile diffPath = .ok diff)
    (hfetch : (getPullRequestComments w w.issue).2 = .ok comments)
    (hfilter : ∀ c ∈ comments, filterReturns w.runId c = true)
    (hcreate : w.createComment
      ⟨w.issue.owner, w.issue.repo, w.issue.number, commentBody w.runId diff⟩ = .ok ()) :
    (run w).filter Event.isMutation =
        (comments.filter (selected w.runId)).map (fun c => Event.mutation c.id) ∧
      (run w).filter Event.isCreate =
        [Event.createComment
          ⟨w.issue.owner, w.issue.repo, w.issue.number, commentBody w.runId diff⟩] ∧
      (run w).filter Event.isSetFailed = [] := by
  rw [run_of_success w diffPath token diff comments hpath htoken hread hfetch hfilter hcreate]
  refine ⟨?_, ?_, ?_⟩
  · simp only [List.filter_append, minimizeAll_mutations]
    simp [List.filter, Event.isMutation]
  · have hnone : (minimizeAll w 0 (comments.filter (selected w.runId))).filter Event.isCreate
        = [] := by
      rw [List.filter_eq_nil_iff]
      intro e he
      cases e with
      | createComment args => exact absurd he (minimizeAll_not_create w 0 _ args)
      | _ => simp [Event.isCreate]
    simp only [List.filter_append, hnone]
    simp [List.filter, Event.isCreate]
  · simp only [List.filter_append, minimizeAll_not_setFailed]
    simp [List.filter, Event.isSetFailed]

/-- A run with a stale, a minimized and a human comment, in which the mutation fails. -/
theorem run_example_trace :
    run (exampleWorld [staleComment, minimizedComment, humanComment] true) =
      [Event.info (lit "Reading diff: pr.diff"),
       Event.detailedInfo (lit "Querying pull request comments") (.issue ⟨lit "o", lit "r", 7⟩),
       Event.query ⟨lit "o", lit "r", 7⟩,
       Event.detailedInfo (lit "Fetched comments")
         (.comments [staleComment, minimizedComment, humanComment]),
       Event.detailedInfo (lit "Minimizing comment") (.subject (lit "c41")),
       Event.mutation (lit "c41"),
       Event.error (lit "Failed to minimize comment: boom"),
       Event.detailedInfo (lit "Creating comment") (.commentArgs ⟨lit "o", lit "r", 7,
         lit "<!-- ActionId: pull-request-diff-comment-action -->\n<!-- RunId: 42 -->\n```diff\n+a\n```"⟩),
       Event.createComment ⟨lit "o", lit "r", 7,
         lit "<!-- ActionId: pull-request-diff-comment-action -->\n<!-- RunId: 42 -->\n```diff\n+a\n```"⟩] := by
  decide

end PullRequestDiffComment
